import Mathlib

/-!
Verification of the ScriptO AI interaction pipeline.

This file gives a shallow embedding, in Lean 4, of the AI subsystem of the
ScriptO note-taking backend: text normalization and mathematical-expression
extraction (src/ai/processors/problem_processor.py, processor_base.py),
subject classification (processor_base.py), the Claude provider adapter
(src/ai/providers/claude_provider.py), the asynchronous solve/define/status
routes (src/routes/ai_route.py), and the interaction-logging service
(src/services/ai_service.py).  Python strings are modelled as Lean strings
(lists of characters), fallible calls as Except values, and the external
AI provider as an explicit behaviour parameter.  Theorems at the end settle
the specification claims against these definitions.
-/

/- ===================================================================
   Section 1: Python text primitives.

   `isPySpace` models Python's whitespace class for str.split()/strip()
   restricted to the ASCII whitespace characters (string.whitespace);
   the repository's inputs and patterns only involve these.
   =================================================================== -/

def isPySpace (c : Char) : Bool :=
  c == ' ' || c == '\t' || c == '\n' || c == '\r' || c == '\x0b' || c == '\x0c'

/-- Python str.strip(): drop whitespace from both ends. -/
def pyStripL (l : List Char) : List Char :=
  ((l.dropWhile isPySpace).reverse.dropWhile isPySpace).reverse

/-- Helper for Python str.split() with no argument: accumulate the current
token (reversed) and split on runs of whitespace, discarding empties. -/
def splitWsAux : List Char → List Char → List (List Char)
  | [], acc => if acc = [] then [] else [acc.reverse]
  | c :: cs, acc =>
      if isPySpace c then
        if acc = [] then splitWsAux cs []
        else acc.reverse :: splitWsAux cs []
      else splitWsAux cs (c :: acc)

/-- Python str.split() with no argument. -/
def pySplit (l : List Char) : List (List Char) := splitWsAux l []

/-- ProcessorBase._clean_text: " ".join(text.split()). -/
def cleanTextL (l : List Char) : List Char := List.intercalate [' '] (pySplit l)

def cleanText (s : String) : String := ⟨cleanTextL s.data⟩

/- ===================================================================
   Section 2: math-symbol normalization
   (ProblemProcessor._normalize_math_symbols).
   =================================================================== -/

/-- Python str.replace(old, new) for a single-character old. -/
def charRep (c : Char) (val : List Char) : List Char → List Char
  | [] => []
  | a :: t => if a = c then val ++ charRep c val t else a :: charRep c val t

/-- ProblemProcessor._normalize_math_symbols: the eight replacements of the
source dictionary, applied in insertion order. -/
def normalizeMathSymbolsL (l0 : List Char) : List Char :=
  let l1 := charRep '×' ['*'] l0
  let l2 := charRep '÷' ['/'] l1
  let l3 := charRep '−' ['-'] l2
  let l4 := charRep '=' [' ', '=', ' '] l3
  let l5 := charRep '+' [' ', '+', ' '] l4
  let l6 := charRep '-' [' ', '-', ' '] l5
  let l7 := charRep '*' [' ', '*', ' '] l6
  charRep '/' [' ', '/', ' '] l7

def normalizeMathSymbols (s : String) : String := ⟨normalizeMathSymbolsL s.data⟩

/- ===================================================================
   Section 3: collapsed-text predicate (spec side, for claim C6): every
   whitespace run is a single space and the ends are trimmed.
   =================================================================== -/

/-- No two adjacent whitespace characters. -/
def noWsRun : List Char → Bool
  | a :: b :: t => !(isPySpace a && isPySpace b) && noWsRun (b :: t)
  | _ => true

/-- The text is whitespace-collapsed: no run of two whitespace characters,
no leading or trailing whitespace, and every whitespace character is a
plain space. -/
def isCollapsedL (l : List Char) : Bool :=
  noWsRun l
    && (match l.head? with | none => true | some c => !isPySpace c)
    && (match l.getLast? with | none => true | some c => !isPySpace c)
    && l.all (fun c => !isPySpace c || c == ' ')

/-- Every occurrence of the character c in the text has a space
immediately before it and immediately after it (spec side, for the
operator-padding part of claim C6); prev is the character before the
current position. -/
def flankedAux (c : Char) : Option Char → List Char → Bool
  | _, [] => true
  | prev, a :: t =>
      if a = c then
        (prev == some ' ') && (t.head? == some ' ') && flankedAux c (some a) t
      else flankedAux c (some a) t

def flanked (c : Char) (l : List Char) : Bool := flankedAux c none l

/- ===================================================================
   Section 4: a small backtracking regular-expression engine, faithful
   to Python re semantics for the constructs used by the source
   patterns: character classes, concatenation, alternation (leftmost
   preference), greedy ? over any term, greedy * and + over character
   classes, and the word boundary \b.
   =================================================================== -/

/-- Python \w restricted to ASCII: [a-zA-Z0-9_]. -/
def isWordChar (c : Char) : Bool :=
  ('a' ≤ c && c ≤ 'z') || ('A' ≤ c && c ≤ 'Z') || ('0' ≤ c && c ≤ '9') || c == '_'

inductive RE where
  | cls (p : Char → Bool)
  | wb
  | seq (a b : RE)
  | alt (a b : RE)
  | opt (a : RE)
  | starCls (p : Char → Bool)
  | plusCls (p : Char → Bool)

/-- Greedy Kleene star over a character class, with backtracking: the
longest extension is tried first, then shorter ones.  `prev` is the
character immediately before the current position (for \b). -/
def starGo (p : Char → Bool) (k : Option Char → List Char → Option (List Char)) :
    Option Char → List Char → Option (List Char)
  | prev, [] => k prev []
  | prev, c :: rest =>
      if p c then starGo p k (some c) rest <|> k prev (c :: rest)
      else k prev (c :: rest)

/-- Backtracking matcher in continuation style.  The continuation receives
the character before the rest and the rest of the input; the result is the
first (in Python backtracking priority order) accepted suffix. -/
def matchR : RE → Option Char → List Char → (Option Char → List Char → Option (List Char)) → Option (List Char)
  | .cls _, _, [], _ => none
  | .cls p, _, c :: rest, k => if p c then k (some c) rest else none
  | .wb, prev, s, k =>
      let pw := match prev with | none => false | some c => isWordChar c
      let nw := match s with | [] => false | c :: _ => isWordChar c
      if pw != nw then k prev s else none
  | .seq a b, prev, s, k => matchR a prev s (fun p' s' => matchR b p' s' k)
  | .alt a b, prev, s, k => matchR a prev s k <|> matchR b prev s k
  | .opt a, prev, s, k => matchR a prev s k <|> k prev s
  | .starCls p, prev, s, k => starGo p k prev s
  | .plusCls _, _, [], _ => none
  | .plusCls p, _, c :: rest, k => if p c then starGo p k (some c) rest else none

/-- Match `re` anchored at the current position; returns the remainder of
the input after the (leftmost-greedy) match. -/
def matchAt (re : RE) (prev : Option Char) (s : List Char) : Option (List Char) :=
  matchR re prev s (fun _ s' => some s')

/-- Scanner for re.finditer: try the pattern at each position left to
right; on a match, emit the matched substring and continue after it
(the source patterns never match the empty string; an empty match is
skipped over one character, without emitting, to keep the scanner total).
`fuel` bounds the recursion; it starts at length + 1. -/
def findFrom (re : RE) : Nat → Option Char → List Char → List (List Char)
  | 0, _, _ => []
  | _ + 1, _, [] => []
  | fuel + 1, prev, s =>
      match matchAt re prev s with
      | some s' =>
          let mlen := s.length - s'.length
          if mlen = 0 then
            match s with
            | [] => []
            | c :: rest => findFrom re fuel (some c) rest
          else
            let m := s.take mlen
            m :: findFrom re fuel (m.getLast?) s'
      | none =>
          match s with
          | [] => []
          | c :: rest => findFrom re fuel (some c) rest

/-- re.finditer over the whole text (match substrings, in order). -/
def pyFindIter (re : RE) (s : List Char) : List (List Char) :=
  findFrom re (s.length + 1) none s

/- ===================================================================
   Section 5: the eight extraction patterns of
   ProblemProcessor._extract_math_expressions, transcribed clause by
   clause from the source regular expressions.
   =================================================================== -/

def isDigit (c : Char) : Bool := '0' ≤ c && c ≤ '9'
def isAsciiLetter (c : Char) : Bool := ('a' ≤ c && c ≤ 'z') || ('A' ≤ c && c ≤ 'Z')
def isOpChar (c : Char) : Bool := c == '-' || c == '+' || c == '*' || c == '/' || c == '='

def reChar (c : Char) : RE := .cls (fun a => a == c)

/-- (?:\d+\.?\d*|\.\d+) : an unsigned number. -/
def reNumber : RE :=
  .alt (.seq (.plusCls isDigit) (.seq (.opt (reChar '.')) (.starCls isDigit)))
       (.seq (reChar '.') (.plusCls isDigit))

/-- [-+]?\d*\.?\d+ : an optionally signed number. -/
def reSignedNumber : RE :=
  .seq (.opt (.cls (fun c => c == '-' || c == '+')))
       (.seq (.starCls isDigit) (.seq (.opt (reChar '.')) (.plusCls isDigit)))

def reWs : RE := .starCls isPySpace

/-- Pattern 1: (?:\d+\.?\d*|\.\d+)\s*[-+*/=]\s*(?:\d+\.?\d*|\.\d+)  -- basic arithmetic. -/
def pat1 : RE := .seq reNumber (.seq reWs (.seq (.cls isOpChar) (.seq reWs reNumber)))

/-- Pattern 2: [a-zA-Z]\s*[-+*/=]\s*\d+  -- variable operations. -/
def pat2 : RE :=
  .seq (.cls isAsciiLetter) (.seq reWs (.seq (.cls isOpChar) (.seq reWs (.plusCls isDigit))))

/-- Pattern 3: [a-zA-Z]\([a-zA-Z]\)  -- function notation. -/
def pat3 : RE :=
  .seq (.cls isAsciiLetter) (.seq (reChar '(') (.seq (.cls isAsciiLetter) (reChar ')')))

/-- Pattern 4: \b\w+\s*=\s*[-+]?\d*\.?\d+  -- assignments. -/
def pat4 : RE :=
  .seq .wb (.seq (.plusCls isWordChar) (.seq reWs (.seq (reChar '=') (.seq reWs reSignedNumber))))

/-- Pattern 5: √\d+  -- square roots. -/
def pat5 : RE := .seq (reChar '√') (.plusCls isDigit)

/-- Pattern 6: \b[xyz]\b  -- common variables. -/
def pat6 : RE := .seq .wb (.seq (.cls (fun c => c == 'x' || c == 'y' || c == 'z')) .wb)

/-- Pattern 7: \b[abc]\b  -- common coefficients. -/
def pat7 : RE := .seq .wb (.seq (.cls (fun c => c == 'a' || c == 'b' || c == 'c')) .wb)

/-- Pattern 8: \(\s*[-+]?\d*\.?\d+\s*[,\s]\s*[-+]?\d*\.?\d+\s*\)  -- coordinates. -/
def pat8 : RE :=
  .seq (reChar '(')
    (.seq reWs (.seq reSignedNumber
      (.seq reWs (.seq (.cls (fun c => c == ',' || isPySpace c))
        (.seq reWs (.seq reSignedNumber (.seq reWs (reChar ')'))))))))

def extractionPatterns : List RE := [pat1, pat2, pat3, pat4, pat5, pat6, pat7, pat8]

/-- The body of the source's accumulation loop: append the stripped match
if it is not already present. -/
def insFirstSeen (acc : List (List Char)) (x : List Char) : List (List Char) :=
  if x ∈ acc then acc else acc ++ [x]

/-- ProblemProcessor._extract_math_expressions: for each pattern, for each
match, append the stripped match text unless already collected. -/
def extractMathExpressionsL (text : List Char) : List (List Char) :=
  extractionPatterns.foldl
    (fun acc pat => (pyFindIter pat text).foldl (fun a m => insFirstSeen a (pyStripL m)) acc)
    []

def extractMathExpressions (s : String) : List String :=
  (extractMathExpressionsL s.data).map (fun l => ⟨l⟩)

/-- First-seen deduplication of a list (spec side, for claim C5). -/
def dedupFirstSeen (l : List (List Char)) : List (List Char) := l.foldl insFirstSeen []

/-- All pattern matches over the full text, pattern by pattern in the fixed
source order, each stripped (spec side, for claim C5). -/
def allPatternMatches (text : List Char) : List (List Char) :=
  (extractionPatterns.flatMap (fun pat => pyFindIter pat text)).map pyStripL

/- ===================================================================
   Section 6: subject classification (ProcessorBase).

   The external AI provider is modelled by an explicit behaviour value:
   `none` when self.ai_provider is None, `some (.ok r)` when a configured
   provider's generate_completion returns text r for the classification
   prompt, and `some (.error e)` when it raises.  The classification
   prompt itself is built from the text but does not influence the
   modelled behaviour value.
   =================================================================== -/

def SUPPORTED_SUBJECTS : List String :=
  ["algebra", "geometry", "calculus", "physics", "chemistry", "biology",
   "statistics", "computer science", "general math"]

def pyStrip (s : String) : String := ⟨pyStripL s.data⟩

/-- Python str.lower() (character-wise lowering over the string's
characters). -/
def pyLower (s : String) : String := ⟨s.data.map Char.toLower⟩

/-- ProcessorBase._detect_subject, instrumented with the number of
provider invocations (second component).  The hint branch mirrors
`if provided_subject and provided_subject.lower() in SUPPORTED_SUBJECTS`;
the provider branch mirrors the try/except around generate_completion,
where an exception is absorbed and the fallback is returned. -/
def detectSubjectCalls (text : String) (providedSubject : Option String)
    (provider : Option (Except String String)) : String × Nat :=
  let _ := text
  let viaProvider : String × Nat :=
    match provider with
    | none => ("general math", 0)
    | some (.error _) => ("general math", 1)
    | some (.ok response) =>
        let detected := pyLower (pyStrip response)
        if detected ∈ SUPPORTED_SUBJECTS then (detected, 1) else ("general math", 1)
  match providedSubject with
  | some s => if s ≠ "" ∧ pyLower s ∈ SUPPORTED_SUBJECTS then (pyLower s, 0) else viaProvider
  | none => viaProvider

/-- ProcessorBase._detect_subject (result only). -/
def detectSubject (text : String) (providedSubject : Option String)
    (provider : Option (Except String String)) : String :=
  (detectSubjectCalls text providedSubject provider).1

/-- Whether a hint takes the fast deterministic path (spec side). -/
def hintMatches : Option String → Bool
  | none => false
  | some s => !s.isEmpty && decide (pyLower s ∈ SUPPORTED_SUBJECTS)

/-- Whether a configured provider's response parses to a supported
subject (spec side). -/
def providerGivesSubject : Option (Except String String) → Bool
  | some (.ok r) => decide (pyLower (pyStrip r) ∈ SUPPORTED_SUBJECTS)
  | _ => false

/- ===================================================================
   Section 7: the problem preprocessor (ProblemProcessor).
   =================================================================== -/

structure ProblemResult where
  processed_text : String
  math_expressions : List String
  subject : String
  has_equations : Bool
  deriving DecidableEq, Repr

/-- ProblemProcessor.process_problem: clean, normalize symbols, extract
expressions; has_equations is bool(math_parts). -/
def processProblem (problem : String) (subject : String) : ProblemResult :=
  let cleanedProblem := cleanText problem
  let cleanedProblem := normalizeMathSymbols cleanedProblem
  let mathParts := extractMathExpressions cleanedProblem
  { processed_text := cleanedProblem
    math_expressions := mathParts
    subject := subject
    has_equations := !mathParts.isEmpty }

/-- ProblemProcessor.process: detect the subject (hint from the context's
subject key), then preprocess. -/
def problemProcessorProcess (content : String) (ctxSubject : Option String)
    (provider : Option (Except String String)) : ProblemResult :=
  processProblem content (detectSubject content ctxSubject provider)

/- ===================================================================
   Section 8: the Claude provider adapter
   (src/ai/providers/claude_provider.py), with exceptions as values.
   =================================================================== -/

/-- Python exception values distinguished by class: the builtin Exception
raised in generate_completion, and the AIProviderError class defined in
src/ai/utils/exceptions.py (never raised by the source). -/
inductive PyExc where
  | exc (msg : String)
  | providerError (msg : String)
  deriving DecidableEq, Repr

def PyExc.isProviderError : PyExc → Bool
  | .providerError _ => true
  | _ => false

/-- Optional generation parameters (parameters.get with defaults). -/
structure GenParams where
  model : Option String := none
  temperature : Option Rat := none
  max_tokens : Option Nat := none
  system : Option String := none
  deriving DecidableEq, Repr

/-- ClaudeProvider.generate_completion: the underlying messages.create
call's outcome is the `callResult` parameter; any failure is re-raised as
a builtin Exception with the upstream detail appended. -/
def generateCompletion (prompt : String) (parameters : GenParams)
    (callResult : Except String String) : Except PyExc String :=
  let _ := prompt
  let _ := parameters.model.getD "claude-3-sonnet-20240229"
  let _ := parameters.temperature.getD (7/10)
  let _ := parameters.max_tokens.getD 1500
  let _ := parameters.system.getD ""
  match callResult with
  | .ok response => .ok response
  | .error e => .error (.exc ("Claude completion failed: " ++ e))

/-- The solve prompt template (interpolation points as in the source;
literal template whitespace abbreviated). -/
def solvePrompt (problem subject : String) : String :=
  "<problem>\n" ++ problem ++ "\n</problem>\n\n<subject>" ++ subject ++
  "</subject>\n\n<instructions>\nPlease solve this " ++ subject ++
  " problem. ...\n</instructions>"

structure SolveResult where
  solution : String
  subject : String
  type : String
  deriving DecidableEq, Repr

/-- ClaudeProvider.solve_stem_problem: build the prompt, call
generate_completion with temperature 0.3 and the tutor system prompt,
and tag the result; there is no try/except of its own, so a failure
propagates exactly as generate_completion raised it. -/
def solveStemProblem (problem subject : String)
    (callResult : Except String String) : Except PyExc SolveResult :=
  match generateCompletion (solvePrompt problem subject)
      { temperature := some (3/10)
        system := some "You are an expert STEM tutor. Provide clear, detailed solutions with step-by-step explanations." }
      callResult with
  | .error e => .error e
  | .ok response => .ok { solution := response, subject := subject, type := "stem_solution" }

/-- The define prompt template (interpolation points as in the source;
literal template whitespace abbreviated). -/
def definePrompt (term gradeLevel subject : String) : String :=
  "<term>" ++ term ++ "</term>\n\n<context>\n<grade_level>" ++ gradeLevel ++
  "</grade_level>\n<subject>" ++ subject ++ "</subject>\n</context>\n<instructions>...</instructions>"

structure TermContext where
  grade_level : Option String := none
  subject : Option String := none
  deriving DecidableEq, Repr

structure DefineResult where
  definition : String
  term : String
  ctx : TermContext
  type : String
  deriving DecidableEq, Repr

/-- ClaudeProvider.define_term: defaults grade_level to "high school" and
subject to "general", calls generate_completion with temperature 0.3 and
the educator system prompt; no try/except of its own. -/
def defineTerm (term : String) (context : Option TermContext)
    (callResult : Except String String) : Except PyExc DefineResult :=
  let ctx := context.getD {}
  let gradeLevel := ctx.grade_level.getD "high school"
  let subject := ctx.subject.getD "general"
  match generateCompletion (definePrompt term gradeLevel subject)
      { temperature := some (3/10)
        system := some "You are an expert educator explaining concepts at an appropriate level." }
      callResult with
  | .error e => .error e
  | .ok response => .ok { definition := response, term := term, ctx := ctx, type := "term_definition" }

/- ===================================================================
   Section 9: interaction records and the asynchronous routes
   (src/routes/ai_route.py, src/models/ai_model.py).

   Identifiers (UUIDs) are modelled as Nat; timestamps as Nat; JSON
   payloads as structured values.  A route's body runs inside a
   try/except that converts any raised exception into an HTTP 500, so
   each fallible step is a Bool/Except parameter.
   =================================================================== -/

/-- The request payload stored on an interaction (request_data). -/
inductive ReqData where
  | stem (problem : String) (subject : Option String) (context : Option String)
  | term (tname : String) (context : Option String)
  deriving DecidableEq, Repr

/-- AIInteraction (src/models/ai_model.py). -/
structure Interaction where
  id : Nat
  user_id : Nat
  type : String
  status : String
  request_data : ReqData
  response_data : Option String
  error_message : Option String
  created_at : Nat
  completed_at : Option Nat
  deriving DecidableEq, Repr

structure HTTPExc where
  status_code : Nat
  detail : String
  deriving DecidableEq, Repr

/-- APIResponse (src/utils/response.py); metadata as a key/value list. -/
structure APIResponse where
  success : Bool
  message : String
  data : Option String := none
  metadata : List (String × String) := []
  deriving DecidableEq, Repr

/-- A background task queued with background_tasks.add_task; it is only
scheduled by the route, never executed before the response returns. -/
inductive BgTask where
  | processStem (interactionId : Nat) (problem : String) (subject : Option String)
      (userId : Nat) (context : Option String)
  | processTerm (interactionId : Nat) (tname : String) (userId : Nat)
      (context : Option String)
  deriving DecidableEq, Repr

/-- Modelled from the spec: `AIService.create_pending_interaction` is
called by the routes but is absent from the source tree (ai_service.py
defines no such method).  Per spec section 4.5, submit "persists a new
pending record synchronously" owned by the requesting user, so this
appends a record in status "pending" and returns its id.  `newId` stands
for the generated UUID and `now` for the creation timestamp. -/
def createPendingInteraction (db : List Interaction) (newId now userId : Nat)
    (interactionType : String) (requestData : ReqData) :
    List Interaction × Nat :=
  (db ++ [{ id := newId, user_id := userId, type := interactionType,
            status := "pending", request_data := requestData,
            response_data := none, error_message := none,
            created_at := now, completed_at := none }], newId)

/-- solve_stem_problem (src/routes/ai_route.py): rate-limit, create the
pending record, queue the background task, and answer success with
metadata status "processing"; any exception inside the body is converted
by the blanket except into HTTP 500 "Failed to queue problem".
`rateLimitOk` is the rate limiter outcome and `persistOk` the outcome of
the persistence write. -/
def solveRoute (db : List Interaction) (problem : String)
    (subject context : Option String) (userId newId now : Nat)
    (rateLimitOk persistOk : Bool) :
    List Interaction × Except HTTPExc APIResponse × List BgTask :=
  if !rateLimitOk || !persistOk then
    (db, .error { status_code := 500, detail := "Failed to queue problem" }, [])
  else
    let (db', interactionId) :=
      createPendingInteraction db newId now userId "stem_solution"
        (.stem problem subject context)
    (db',
     .ok { success := true
           message := "Problem solving queued successfully"
           data := none
           metadata := [("timestamp", toString now),
                        ("interaction_id", toString interactionId),
                        ("status", "processing")] },
     [.processStem interactionId problem subject userId context])

/-- define_term (src/routes/ai_route.py): same shape as solveRoute with
the term payload and "Failed to queue definition" on failure. -/
def defineRoute (db : List Interaction) (tname : String)
    (context : Option String) (userId newId now : Nat)
    (rateLimitOk persistOk : Bool) :
    List Interaction × Except HTTPExc APIResponse × List BgTask :=
  if !rateLimitOk || !persistOk then
    (db, .error { status_code := 500, detail := "Failed to queue definition" }, [])
  else
    let (db', interactionId) :=
      createPendingInteraction db newId now userId "term_definition"
        (.term tname context)
    (db',
     .ok { success := true
           message := "Term definition queued successfully"
           data := none
           metadata := [("timestamp", toString now),
                        ("interaction_id", toString interactionId),
                        ("status", "processing")] },
     [.processTerm interactionId tname userId context])

/-- Modelled from the spec: `AIService.get_interaction` is called by the
status route but is absent from the source tree.  Per spec section 4.5,
get_status "returns the record only if it belongs to the requesting
user"; absence and ownership mismatch are both reported as absence. -/
def getInteraction (db : List Interaction) (interactionId userId : Nat) :
    Option Interaction :=
  match db.find? (fun r => r.id == interactionId) with
  | some r => if r.user_id == userId then some r else none
  | none => none

/-- check_status (src/routes/ai_route.py): look the interaction up; when
it is absent an HTTPException(404) is raised inside the try block, which
the blanket `except Exception` then converts to HTTP 500 "Failed to
check status" — so absence and ownership mismatch both surface as that
same 500 response. -/
def checkStatusRoute (db : List Interaction) (interactionId userId : Nat) :
    Except HTTPExc APIResponse :=
  match getInteraction db interactionId userId with
  | none => .error { status_code := 500, detail := "Failed to check status" }
  | some interaction =>
      .ok { success := true
            message := "Status retrieved successfully"
            data := interaction.response_data
            metadata := [("status", interaction.status),
                         ("created_at", toString interaction.created_at),
                         ("completed_at",
                          match interaction.completed_at with
                          | none => "None"
                          | some t => toString t)] }

/- ===================================================================
   Section 10: AIService.analyze_content and _log_interaction
   (src/services/ai_service.py).

   The body runs in a try/except that converts any exception e into
   HTTPException(500, "Analysis failed: " + str(e)).  _preprocess_content
   returns its input unchanged and _generate_analysis returns a fixed
   suggestion list (source placeholders).  `uuidGen` stands for the
   UUID() call building the response id (in the source that call takes
   no arguments and raises TypeError at runtime; it is kept as an
   explicit outcome parameter), and `logWrite` for the _log_interaction
   database write. -/

structure AISuggestion where
  type : String
  content : String
  confidence : Rat
  deriving DecidableEq, Repr

structure AIResponseS where
  id : Nat
  type : String
  suggestions : List AISuggestion
  confidence : Rat
  context : String
  deriving DecidableEq, Repr

/-- AIService._preprocess_content: returns content unchanged. -/
def preprocessContent (content : String) (contentType : String) : String :=
  let _ := contentType
  content

/-- AIService._generate_analysis: placeholder suggestion list. -/
def generateAnalysis (content : String) (analysisType : String)
    (context : Option String) : List AISuggestion :=
  let _ := content
  let _ := context
  [{ type := analysisType, content := "Sample analysis result", confidence := 85/100 }]

/-- AIService._calculate_confidence: mean of the suggestion confidences. -/
def calculateConfidence (suggestions : List AISuggestion) : Rat :=
  if suggestions.isEmpty then 0
  else (suggestions.map (·.confidence)).sum / suggestions.length

/-- AIService.analyze_content with each effectful step's outcome explicit.
The _log_interaction write happens after the response is built and before
it is returned, still inside the try block. -/
def analyzeContent (content reqType : String) (context : Option String)
    (uuidGen : Except String Nat) (logWrite : Except String Unit) :
    Except HTTPExc AIResponseS :=
  let body : Except String AIResponseS := do
    let processedContent := preprocessContent content reqType
    let suggestions := generateAnalysis processedContent reqType context
    let rid ← uuidGen
    let response : AIResponseS :=
      { id := rid, type := reqType, suggestions := suggestions,
        confidence := calculateConfidence suggestions,
        context := context.getD "" }
    let _ ← logWrite
    pure response
  match body with
  | .ok response => .ok response
  | .error e => .error { status_code := 500, detail := "Analysis failed: " ++ e }

/- Lemmas about pySplit / cleanText. -/

theorem splitWsAux_token_spec (l : List Char) : ∀ (acc : List Char),
    (∀ c ∈ acc, isPySpace c = false) →
    ∀ t ∈ splitWsAux l acc, t ≠ [] ∧ ∀ c ∈ t, isPySpace c = false := by
  induction l with
  | nil =>
    intro acc hacc t ht
    simp only [splitWsAux] at ht
    split at ht
    · simp at ht
    · next hne =>
      simp only [List.mem_singleton] at ht
      subst ht
      refine ⟨by simpa using hne, ?_⟩
      intro c hc
      exact hacc c (List.mem_reverse.mp hc)
  | cons c cs ih =>
    intro acc hacc t ht
    simp only [splitWsAux] at ht
    by_cases hsp : isPySpace c
    · simp only [hsp, if_true] at ht
      by_cases hacc0 : acc = []
      · simp only [hacc0, if_true] at ht
        exact ih [] (by simp) t ht
      · simp only [hacc0, if_false] at ht
        rcases List.mem_cons.mp ht with h | h
        · subst h
          refine ⟨by simpa using hacc0, ?_⟩
          intro d hd
          exact hacc d (List.mem_reverse.mp hd)
        · exact ih [] (by simp) t h
    · simp only [hsp, if_false] at ht
      refine ih (c :: acc) ?_ t ht
      intro d hd
      rcases List.mem_cons.mp hd with h | h
      · subst h; simpa using hsp
      · exact hacc d h

theorem pySplit_token_spec (l : List Char) :
    ∀ t ∈ pySplit l, t ≠ [] ∧ ∀ c ∈ t, isPySpace c = false :=
  splitWsAux_token_spec l [] (by simp)

theorem splitWsAux_append_nonspace (w : List Char) : ∀ (rest acc : List Char),
    (∀ c ∈ w, isPySpace c = false) →
    splitWsAux (w ++ rest) acc = splitWsAux rest (w.reverse ++ acc) := by
  induction w with
  | nil => intro rest acc _; simp
  | cons c w' ih =>
    intro rest acc hw
    have hc : isPySpace c = false := hw c (by simp)
    simp only [List.cons_append, splitWsAux, hc, Bool.false_eq_true, if_false, List.append_eq]
    rw [ih rest (c :: acc) (fun d hd => hw d (List.mem_cons_of_mem c hd))]
    simp

theorem pySplit_single (w : List Char) (hne : w ≠ [])
    (hw : ∀ c ∈ w, isPySpace c = false) : pySplit w = [w] := by
  have := splitWsAux_append_nonspace w [] [] hw
  simp only [List.append_nil] at this
  unfold pySplit
  rw [this]
  simp only [splitWsAux]
  rw [if_neg (by simpa using hne)]
  simp

theorem pySplit_word_space (w rest : List Char) (hne : w ≠ [])
    (hw : ∀ c ∈ w, isPySpace c = false) :
    pySplit (w ++ ' ' :: rest) = w :: pySplit rest := by
  unfold pySplit
  rw [splitWsAux_append_nonspace w (' ' :: rest) [] hw]
  simp only [List.append_nil, splitWsAux]
  rw [if_pos (by decide)]
  rw [if_neg (by simpa using hne)]
  simp

theorem pySplit_intercalate (ws : List (List Char))
    (h : ∀ w ∈ ws, w ≠ [] ∧ ∀ c ∈ w, isPySpace c = false) :
    pySplit (List.intercalate [' '] ws) = ws := by
  induction ws with
  | nil => simp [List.intercalate, pySplit, splitWsAux]
  | cons w ws' ih =>
    match ws' with
    | [] =>
      have hw := h w (by simp)
      simp only [List.intercalate]
      simpa using pySplit_single w hw.1 hw.2
    | w' :: ws'' =>
      have hw := h w (by simp)
      have hrest : ∀ v ∈ w' :: ws'', v ≠ [] ∧ ∀ c ∈ v, isPySpace c = false := by
        intro v hv
        exact h v (List.mem_cons_of_mem w hv)
      have hic : List.intercalate [' '] (w :: w' :: ws'') =
          w ++ ' ' :: List.intercalate [' '] (w' :: ws'') := by
        simp [List.intercalate, List.intersperse]
      rw [hic, pySplit_word_space w _ hw.1 hw.2, ih hrest]

theorem cleanTextL_idem (l : List Char) : cleanTextL (cleanTextL l) = cleanTextL l := by
  unfold cleanTextL
  rw [pySplit_intercalate (pySplit l) (pySplit_token_spec l)]

theorem noWsRun_append_nonspace (w tail : List Char)
    (hw : ∀ c ∈ w, isPySpace c = false) : noWsRun (w ++ tail) = noWsRun tail := by
  induction w with
  | nil => simp
  | cons c w' ih =>
    have hc : isPySpace c = false := hw c (by simp)
    have ih' := ih (fun d hd => hw d (List.mem_cons_of_mem c hd))
    cases w' with
    | nil =>
      cases tail with
      | nil => simp [noWsRun]
      | cons t ts => simp [noWsRun, hc]
    | cons d w'' =>
      simp only [List.cons_append, noWsRun, hc, Bool.false_and, Bool.not_false,
        Bool.true_and] at ih' ⊢
      exact ih'

theorem intercalate_ne_nil (w : List Char) (ws : List (List Char)) (hw : w ≠ []) :
    List.intercalate [' '] (w :: ws) ≠ [] := by
  cases ws with
  | nil => simpa [List.intercalate]
  | cons w' ws' =>
    have : List.intercalate [' '] (w :: w' :: ws') =
        w ++ ' ' :: List.intercalate [' '] (w' :: ws') := by
      simp [List.intercalate, List.intersperse]
    rw [this]
    simp [hw]

theorem collapsed_parts_intercalate (ws : List (List Char))
    (h : ∀ w ∈ ws, w ≠ [] ∧ ∀ c ∈ w, isPySpace c = false) :
    noWsRun (List.intercalate [' '] ws) = true ∧
    (∀ c, (List.intercalate [' '] ws).head? = some c → isPySpace c = false) ∧
    (∀ c, (List.intercalate [' '] ws).getLast? = some c → isPySpace c = false) ∧
    (∀ c ∈ List.intercalate [' '] ws, isPySpace c = false ∨ c = ' ') := by
  induction ws with
  | nil => simp [List.intercalate, noWsRun]
  | cons w ws' ih =>
    have hw := h w (by simp)
    match ws' with
    | [] =>
      simp only [List.intercalate, List.intersperse, List.flatten, List.append_nil]
      refine ⟨?_, ?_, ?_, ?_⟩
      · have := noWsRun_append_nonspace w [] hw.2
        simpa using this
      · intro c hc
        exact hw.2 c (List.mem_of_mem_head? hc)
      · intro c hc
        exact hw.2 c (List.mem_of_mem_getLast? hc)
      · intro c hc
        exact Or.inl (hw.2 c hc)
    | w' :: ws'' =>
      have hrest : ∀ v ∈ w' :: ws'', v ≠ [] ∧ ∀ c ∈ v, isPySpace c = false :=
        fun v hv => h v (List.mem_cons_of_mem w hv)
      have ihr := ih hrest
      have hic : List.intercalate [' '] (w :: w' :: ws'') =
          w ++ ' ' :: List.intercalate [' '] (w' :: ws'') := by
        simp [List.intercalate, List.intersperse]
      set T := List.intercalate [' '] (w' :: ws'') with hT
      have hTne : T ≠ [] := intercalate_ne_nil w' ws'' (hrest w' (by simp)).1
      rw [hic]
      refine ⟨?_, ?_, ?_, ?_⟩
      · rw [noWsRun_append_nonspace w (' ' :: T) hw.2]
        cases hTc : T with
        | nil => exact absurd hTc hTne
        | cons t ts =>
          have ht : isPySpace t = false := by
            refine ihr.2.1 t ?_
            rw [hTc]; rfl
          rw [hTc] at ihr
          simp only [noWsRun, ht, Bool.and_false, Bool.not_false, Bool.true_and]
          exact ihr.1
      · intro c hc
        cases hwc : w with
        | nil => exact absurd hwc hw.1
        | cons a as =>
          rw [hwc] at hc
          simp only [List.cons_append, List.head?_cons, Option.some.injEq] at hc
          rw [← hc]
          exact hw.2 a (by rw [hwc]; simp)
      · intro c hc
        rw [List.getLast?_append] at hc
        cases hTc : T with
        | nil => exact absurd hTc hTne
        | cons t ts =>
          rw [hTc, List.getLast?_cons_cons] at hc
          cases hgl : (t :: ts).getLast? with
          | none => simp at hgl
          | some d =>
            rw [hgl] at hc
            simp only [Option.or] at hc
            refine ihr.2.2.1 c ?_
            rw [hTc, hgl]
            exact hc
      · intro c hc
        rcases List.mem_append.mp hc with h1 | h2
        · exact Or.inl (hw.2 c h1)
        · rcases List.mem_cons.mp h2 with h3 | h4
          · exact Or.inr h3
          · exact ihr.2.2.2 c h4

theorem isCollapsed_cleanTextL (l : List Char) : isCollapsedL (cleanTextL l) = true := by
  obtain ⟨h1, h2, h3, h4⟩ := collapsed_parts_intercalate (pySplit l) (pySplit_token_spec l)
  unfold isCollapsedL cleanTextL
  rw [Bool.and_eq_true, Bool.and_eq_true, Bool.and_eq_true]
  refine ⟨⟨⟨h1, ?_⟩, ?_⟩, ?_⟩
  · cases hh : (List.intercalate [' '] (pySplit l)).head? with
    | none => rfl
    | some c => simp [h2 c hh]
  · cases hh : (List.intercalate [' '] (pySplit l)).getLast? with
    | none => rfl
    | some c => simp [h3 c hh]
  · rw [List.all_eq_true]
    intro c hc
    rcases h4 c hc with h | h
    · simp [h]
    · simp [h]

/- Lemmas about charRep and flanked (for claim C6). -/

theorem not_mem_charRep_self (c : Char) (val : List Char) (hv : c ∉ val) :
    ∀ l : List Char, c ∉ charRep c val l := by
  intro l
  induction l with
  | nil => simp [charRep]
  | cons a t ih =>
    simp only [charRep]
    split
    · intro h
      rcases List.mem_append.mp h with h1 | h2
      · exact hv h1
      · exact ih h2
    · next hne =>
      intro h
      rcases List.mem_cons.mp h with h1 | h2
      · exact hne h1.symm
      · exact ih h2

theorem not_mem_charRep_other (c d : Char) (val : List Char) (hv : d ∉ val) :
    ∀ l : List Char, d ∉ l → d ∉ charRep c val l := by
  intro l
  induction l with
  | nil => intro _; simp [charRep]
  | cons a t ih =>
    intro hl
    have hd : d ≠ a := fun h => hl (by rw [h]; exact List.mem_cons_self _ _)
    have ht : d ∉ t := fun h => hl (List.mem_cons_of_mem a h)
    simp only [charRep]
    split
    · intro h
      rcases List.mem_append.mp h with h1 | h2
      · exact hv h1
      · exact ih ht h2
    · intro h
      rcases List.mem_cons.mp h with h1 | h2
      · exact hd h1
      · exact ih ht h2

theorem flankedAux_prev_congr (d : Char) (p₁ p₂ : Option Char) (l : List Char)
    (hhead : l.head? ≠ some d) : flankedAux d p₁ l = flankedAux d p₂ l := by
  cases l with
  | nil => rfl
  | cons a t =>
    have ha : a ≠ d := by
      intro h
      exact hhead (by rw [List.head?_cons, h])
    simp only [flankedAux, if_neg ha]

theorem flankedAux_append_val (d : Char) :
    ∀ (val : List Char), d ∉ val → val.getLast? = some ' ' →
      ∀ (X : List Char) (prev : Option Char),
        flankedAux d prev (val ++ X) = flankedAux d (some ' ') X := by
  intro val
  induction val with
  | nil => intro _ hlast; simp at hlast
  | cons a v ih =>
    intro hd hlast X prev
    have ha : a ≠ d := fun h => hd (by rw [h]; exact List.mem_cons_self d v)
    cases v with
    | nil =>
      simp only [List.getLast?_singleton, Option.some.injEq] at hlast
      subst hlast
      simp only [List.cons_append, List.nil_append, flankedAux, if_neg ha]
      rfl
    | cons b v' =>
      have hlast' : (b :: v').getLast? = some ' ' := by
        rw [← List.getLast?_cons_cons]
        exact hlast
      have hd' : d ∉ b :: v' := fun h => hd (List.mem_cons_of_mem a h)
      simp only [List.cons_append, flankedAux, if_neg ha]
      exact ih hd' hlast' X (some a)

theorem flanked_charRep_pad (c : Char) (hc : c ≠ ' ') :
    ∀ (l : List Char) (prev : Option Char),
      flankedAux c prev (charRep c [' ', c, ' '] l) = true := by
  intro l
  induction l with
  | nil => intro prev; rfl
  | cons a t ih =>
    intro prev
    simp only [charRep]
    split
    · show flankedAux c prev (' ' :: c :: ' ' :: charRep c [' ', c, ' '] t) = true
      have hsc : ¬(' ' = c) := fun h => hc h.symm
      simp only [flankedAux, if_neg hsc, if_pos rfl, List.head?_cons]
      simp only [beq_self_eq_true, Bool.true_and]
      rw [if_pos trivial]
      exact ih (some ' ')
    · next hne =>
      simp only [flankedAux, if_neg hne]
      exact ih (some a)

theorem flanked_charRep_preserve (c d : Char) (val : List Char)
    (hc : c ≠ ' ') (hd : d ≠ ' ') (hdc : d ≠ c) (hdval : d ∉ val)
    (hvhead : val.head? = some ' ') (hvlast : val.getLast? = some ' ') :
    ∀ (l : List Char) (prev : Option Char),
      flankedAux d prev l = true → flankedAux d prev (charRep c val l) = true := by
  intro l
  induction l with
  | nil => intro prev h; exact h
  | cons a t ih =>
    intro prev h
    by_cases hac : a = c
    · have had : ¬(a = d) := fun hh => hdc (hh.symm.trans hac)
      rw [flankedAux, if_neg had] at h
      show flankedAux d prev (charRep c val (a :: t)) = true
      rw [charRep, if_pos hac]
      rw [flankedAux_append_val d val hdval hvlast]
      have hhead : (charRep c val t).head? ≠ some d := by
        cases ht : t with
        | nil => simp [charRep]
        | cons b t' =>
          have h' := h
          rw [ht] at h'
          by_cases hbc : b = c
          · rw [charRep, if_pos hbc]
            cases hv : val with
            | nil => rw [hv] at hvhead; simp at hvhead
            | cons x xs =>
              have hx : x = ' ' := by rw [hv] at hvhead; simpa using hvhead
              simp only [List.cons_append, List.head?_cons, Ne, Option.some.injEq]
              rw [hx]
              exact fun hh => hd hh.symm
          · rw [charRep, if_neg hbc]
            have hbd : ¬(b = d) := by
              intro hh
              rw [flankedAux, if_pos hh] at h'
              simp only [Bool.and_eq_true] at h'
              obtain ⟨⟨h1, _⟩, _⟩ := h'
              have ha' : a = ' ' := by simpa using h1
              exact hc (hac.symm.trans ha')
            simp only [List.head?_cons, Ne, Option.some.injEq]
            exact hbd
      rw [flankedAux_prev_congr d (some ' ') (some a) _ hhead]
      exact ih (some a) h
    · by_cases had : a = d
      · rw [flankedAux, if_pos had] at h
        simp only [Bool.and_eq_true] at h
        obtain ⟨⟨h1, h2⟩, h3⟩ := h
        show flankedAux d prev (charRep c val (a :: t)) = true
        rw [charRep, if_neg hac]
        rw [flankedAux, if_pos had]
        simp only [Bool.and_eq_true]
        refine ⟨⟨h1, ?_⟩, ih (some a) h3⟩
        have ht' : t.head? = some ' ' := by simpa using h2
        cases ht : t with
        | nil => rw [ht] at ht'; simp at ht'
        | cons b t' =>
          rw [ht] at ht'
          simp only [List.head?_cons, Option.some.injEq] at ht'
          rw [charRep, if_neg (by rw [ht']; exact fun hh => hc hh.symm)]
          simp [ht']
      · rw [flankedAux, if_neg had] at h
        show flankedAux d prev (charRep c val (a :: t)) = true
        rw [charRep, if_neg hac]
        rw [flankedAux, if_neg had]
        exact ih (some a) h

/- Assembled facts about normalizeMathSymbols (for claim C6). -/

theorem signs_removed_normalize (l : List Char) :
    '×' ∉ normalizeMathSymbolsL l ∧ '÷' ∉ normalizeMathSymbolsL l ∧
    '−' ∉ normalizeMathSymbolsL l := by
  unfold normalizeMathSymbolsL
  refine ⟨?_, ?_, ?_⟩
  · apply not_mem_charRep_other _ _ _ (by decide)
    apply not_mem_charRep_other _ _ _ (by decide)
    apply not_mem_charRep_other _ _ _ (by decide)
    apply not_mem_charRep_other _ _ _ (by decide)
    apply not_mem_charRep_other _ _ _ (by decide)
    apply not_mem_charRep_other _ _ _ (by decide)
    apply not_mem_charRep_other _ _ _ (by decide)
    exact not_mem_charRep_self _ _ (by decide) l
  · apply not_mem_charRep_other _ _ _ (by decide)
    apply not_mem_charRep_other _ _ _ (by decide)
    apply not_mem_charRep_other _ _ _ (by decide)
    apply not_mem_charRep_other _ _ _ (by decide)
    apply not_mem_charRep_other _ _ _ (by decide)
    apply not_mem_charRep_other _ _ _ (by decide)
    exact not_mem_charRep_self _ _ (by decide) _
  · apply not_mem_charRep_other _ _ _ (by decide)
    apply not_mem_charRep_other _ _ _ (by decide)
    apply not_mem_charRep_other _ _ _ (by decide)
    apply not_mem_charRep_other _ _ _ (by decide)
    apply not_mem_charRep_other _ _ _ (by decide)
    exact not_mem_charRep_self _ _ (by decide) _

theorem flanked_ops_normalize (l : List Char) :
    flanked '=' (normalizeMathSymbolsL l) = true ∧
    flanked '+' (normalizeMathSymbolsL l) = true ∧
    flanked '-' (normalizeMathSymbolsL l) = true ∧
    flanked '*' (normalizeMathSymbolsL l) = true ∧
    flanked '/' (normalizeMathSymbolsL l) = true := by
  unfold normalizeMathSymbolsL flanked
  refine ⟨?_, ?_, ?_, ?_, ?_⟩
  · apply flanked_charRep_preserve '/' '=' [' ', '/', ' '] (by decide) (by decide) (by decide) (by decide) rfl rfl
    apply flanked_charRep_preserve '*' '=' [' ', '*', ' '] (by decide) (by decide) (by decide) (by decide) rfl rfl
    apply flanked_charRep_preserve '-' '=' [' ', '-', ' '] (by decide) (by decide) (by decide) (by decide) rfl rfl
    apply flanked_charRep_preserve '+' '=' [' ', '+', ' '] (by decide) (by decide) (by decide) (by decide) rfl rfl
    exact flanked_charRep_pad '=' (by decide) _ none
  · apply flanked_charRep_preserve '/' '+' [' ', '/', ' '] (by decide) (by decide) (by decide) (by decide) rfl rfl
    apply flanked_charRep_preserve '*' '+' [' ', '*', ' '] (by decide) (by decide) (by decide) (by decide) rfl rfl
    apply flanked_charRep_preserve '-' '+' [' ', '-', ' '] (by decide) (by decide) (by decide) (by decide) rfl rfl
    exact flanked_charRep_pad '+' (by decide) _ none
  · apply flanked_charRep_preserve '/' '-' [' ', '/', ' '] (by decide) (by decide) (by decide) (by decide) rfl rfl
    apply flanked_charRep_preserve '*' '-' [' ', '*', ' '] (by decide) (by decide) (by decide) (by decide) rfl rfl
    exact flanked_charRep_pad '-' (by decide) _ none
  · apply flanked_charRep_preserve '/' '*' [' ', '/', ' '] (by decide) (by decide) (by decide) (by decide) rfl rfl
    exact flanked_charRep_pad '*' (by decide) _ none
  · exact flanked_charRep_pad '/' (by decide) _ none

/- Structural lemmas about the extraction accumulator (for claim C5). -/

theorem extract_eq_dedupFirstSeen (text : List Char) :
    extractMathExpressionsL text = dedupFirstSeen (allPatternMatches text) := by
  unfold extractMathExpressionsL dedupFirstSeen allPatternMatches
  rw [List.foldl_map, List.flatMap_def, List.foldl_flatten, List.foldl_map]

theorem foldl_insFirstSeen_nodup (l : List (List Char)) :
    ∀ acc : List (List Char), acc.Nodup → (l.foldl insFirstSeen acc).Nodup := by
  induction l with
  | nil => intro acc h; exact h
  | cons x l' ih =>
    intro acc h
    simp only [List.foldl_cons]
    refine ih _ ?_
    unfold insFirstSeen
    split
    · exact h
    · next hx =>
      rw [List.nodup_append]
      exact ⟨h, List.nodup_singleton x, by simpa using hx⟩

/- ===================================================================
   Claim theorems.
   =================================================================== -/

/-- C7: for every input text, the whitespace-collapse normalization
(_clean_text) is idempotent: applying it to its own output yields that
output unchanged. -/
theorem claim_C7_clean_text_idempotent (s : String) :
    cleanText (cleanText s) = cleanText s :=
  congrArg String.mk (cleanTextL_idem s.data)

/-- C3: for every input text and every provided subject hint that matches
an entry of the closed subject enumeration case-insensitively, subject
resolution returns that subject immediately with zero provider
invocations. -/
theorem claim_C3_hint_fast_path (text hint : String)
    (provider : Option (Except String String))
    (hne : hint ≠ "") (hmem : pyLower hint ∈ SUPPORTED_SUBJECTS) :
    detectSubjectCalls text (some hint) provider = (pyLower hint, 0) := by
  have key : hint ≠ "" ∧ pyLower hint ∈ SUPPORTED_SUBJECTS := ⟨hne, hmem⟩
  simp only [detectSubjectCalls, if_pos key]

/-- C3 witness: the hint "Algebra" matches case-insensitively, and the
result is ("algebra", 0) even though the provider would raise. -/
theorem claim_C3_witness :
    ("Algebra" : String) ≠ "" ∧ pyLower "Algebra" ∈ SUPPORTED_SUBJECTS ∧
      detectSubjectCalls "find x such that 2x = 4" (some "Algebra")
        (some (.error "provider down")) = (pyLower "Algebra", 0) :=
  ⟨by decide, by decide,
   claim_C3_hint_fast_path "find x such that 2x = 4" "Algebra"
     (some (.error "provider down")) (by decide) (by decide)⟩

/-- C4: for every input text, whenever no provided hint matches and the
provider path cannot produce a supported subject (no provider, response
not in the enumeration, or the call raises), subject resolution returns
the fallback "general math"; the provider failure is absorbed (the result
is a plain value, not an error). -/
theorem claim_C4_fallback_general_math (text : String) (hint : Option String)
    (provider : Option (Except String String))
    (hhint : hintMatches hint = false)
    (hprov : providerGivesSubject provider = false) :
    detectSubject text hint provider = "general math" := by
  cases hint with
  | none =>
    cases provider with
    | none => rfl
    | some r =>
      cases r with
      | error e => rfl
      | ok resp =>
        simp only [providerGivesSubject, decide_eq_false_iff_not] at hprov
        simp only [detectSubject, detectSubjectCalls, if_neg hprov]
  | some s =>
    simp only [hintMatches, Bool.and_eq_false_iff, Bool.not_eq_false',
      decide_eq_false_iff_not] at hhint
    have hcond : ¬(s ≠ "" ∧ pyLower s ∈ SUPPORTED_SUBJECTS) := by
      intro ⟨h1, h2⟩
      rcases hhint with h | h
      · exact h1 (by rwa [String.isEmpty_iff] at h)
      · exact h h2
    cases provider with
    | none => simp only [detectSubject, detectSubjectCalls, if_neg hcond]
    | some r =>
      cases r with
      | error e => simp only [detectSubject, detectSubjectCalls, if_neg hcond]
      | ok resp =>
        simp only [providerGivesSubject, decide_eq_false_iff_not] at hprov
        simp only [detectSubject, detectSubjectCalls, if_neg hcond, if_neg hprov]

/-- C4 witness: a hint outside the enumeration together with a raising
provider still yields "general math" and no propagated error. -/
theorem claim_C4_witness :
    hintMatches (some "underwater basket weaving") = false ∧
    providerGivesSubject (some (.error "quota exceeded")) = false ∧
    detectSubject "what is a sonnet" (some "underwater basket weaving")
      (some (.error "quota exceeded")) = "general math" :=
  ⟨by decide, by decide,
   claim_C4_fallback_general_math "what is a sonnet" (some "underwater basket weaving")
     (some (.error "quota exceeded")) (by decide) (by decide)⟩

/-- C10: for every input text, hint, and provider behaviour (valid,
invalid, raising, or absent), the resolved subject — and hence the
subject field of the problem preprocessing result — is a member of the
closed supported-subjects enumeration. -/
theorem claim_C10_subject_always_supported (text : String) (hint : Option String)
    (provider : Option (Except String String)) :
    detectSubject text hint provider ∈ SUPPORTED_SUBJECTS ∧
    (problemProcessorProcess text hint provider).subject ∈ SUPPORTED_SUBJECTS := by
  have key : detectSubject text hint provider ∈ SUPPORTED_SUBJECTS := by
    have hvia : ∀ p : Option (Except String String),
        (match p with
          | none => (("general math" : String), 0)
          | some (Except.error _) => ("general math", 1)
          | some (Except.ok response) =>
            if pyLower (pyStrip response) ∈ SUPPORTED_SUBJECTS
            then (pyLower (pyStrip response), 1) else ("general math", 1)).1
          ∈ SUPPORTED_SUBJECTS := by
      intro p
      cases p with
      | none => decide
      | some r =>
        cases r with
        | error e => show ("general math" : String) ∈ SUPPORTED_SUBJECTS; decide
        | ok resp =>
          by_cases hm : pyLower (pyStrip resp) ∈ SUPPORTED_SUBJECTS
          · simpa [if_pos hm] using hm
          · simp only [if_neg hm]
            show ("general math" : String) ∈ SUPPORTED_SUBJECTS
            decide
    cases hint with
    | none => exact hvia provider
    | some s =>
      by_cases hcond : s ≠ "" ∧ pyLower s ∈ SUPPORTED_SUBJECTS
      · simpa [detectSubject, detectSubjectCalls, if_pos hcond] using hcond.2
      · simp only [detectSubject, detectSubjectCalls, if_neg hcond]
        exact hvia provider
  exact ⟨key, key⟩

set_option maxRecDepth 10000

/-- C5: mathematical-expression extraction evaluates each pattern
independently over the full text in the fixed source order and
deduplicates matches by exact string equality keeping first-seen order
(the accumulator equals the first-seen dedup of all per-pattern matches,
and is duplicate-free); on "2 + 2 = 4 and x = 5" it deterministically
yields the arithmetic and assignment matches of both fragments, with no
duplicates, in first-seen order. -/
theorem claim_C5_extraction_dedup_and_example :
    (∀ text : List Char,
        extractMathExpressionsL text = dedupFirstSeen (allPatternMatches text)) ∧
    (∀ text : List Char, (extractMathExpressionsL text).Nodup) ∧
    extractMathExpressions "2 + 2 = 4 and x = 5" = ["2 + 2", "x = 5", "2 = 4", "x"] := by
  refine ⟨extract_eq_dedupFirstSeen, ?_, by decide⟩
  intro text
  rw [extract_eq_dedupFirstSeen]
  exact foldl_insFirstSeen_nodup _ [] List.nodup_nil

/-- C6 counterexample: the processed text of the problem "2 + 2" is
"2  +  2" (the padding of '+' is applied after the whitespace collapse
and reintroduces a double-space run), so the preprocessor's output is not
whitespace-collapsed as the claim states. -/
theorem claim_C6_counterexample :
    (processProblem "2 + 2" "algebra").processed_text = "2  +  2" ∧
    isCollapsedL ("2  +  2" : String).data = false := by
  constructor
  · rfl
  · decide

/-- C6 amended: the preprocessor first whitespace-collapses the raw text
(that intermediate is collapsed: single-space runs, trimmed), then the
symbol-substitution pass replaces the non-ASCII multiplication, division
and minus signs and pads the arithmetic operators and equals with
surrounding spaces; since padding inserts spaces next to existing ones,
the final processed text is the substitution applied to the collapsed
text and is not itself whitespace-collapsed in general. -/
theorem claim_C6_amended (problem subject : String) :
    (processProblem problem subject).processed_text =
      normalizeMathSymbols (cleanText problem) ∧
    isCollapsedL (cleanText problem).data = true ∧
    ('×' ∉ (processProblem problem subject).processed_text.data ∧
     '÷' ∉ (processProblem problem subject).processed_text.data ∧
     '−' ∉ (processProblem problem subject).processed_text.data) ∧
    (flanked '=' (processProblem problem subject).processed_text.data = true ∧
     flanked '+' (processProblem problem subject).processed_text.data = true ∧
     flanked '-' (processProblem problem subject).processed_text.data = true ∧
     flanked '*' (processProblem problem subject).processed_text.data = true ∧
     flanked '/' (processProblem problem subject).processed_text.data = true) := by
  refine ⟨rfl, isCollapsed_cleanTextL problem.data, ?_, ?_⟩
  · exact signs_removed_normalize (cleanTextL problem.data)
  · exact flanked_ops_normalize (cleanTextL problem.data)

/-- C8 counterexample: when the underlying call fails, generate_completion
raises a plain builtin Exception, not the AIProviderError classification,
and solve_stem_problem propagates that same plain exception. -/
theorem claim_C8_counterexample :
    generateCompletion "p" {} (.error "boom") =
      .error (.exc "Claude completion failed: boom") ∧
    (PyExc.exc "Claude completion failed: boom").isProviderError = false ∧
    solveStemProblem "find x" "algebra" (.error "boom") =
      .error (.exc "Claude completion failed: boom") := by
  refine ⟨rfl, rfl, rfl⟩

/-- C8 amended: if the underlying completion call fails for any reason,
generate_completion raises a plain builtin Exception whose message is
"Claude completion failed: " followed by the upstream failure detail (so
the detail is preserved, but the classification is not the defined
AIProviderError, which the source never raises); solve_stem_problem and
define_term install no wrapping of their own and propagate exactly that
wrapped exception. -/
theorem claim_C8_amended (prompt : String) (params : GenParams) (e : String)
    (problem subject term : String) (ctx : Option TermContext) :
    generateCompletion prompt params (.error e) =
      .error (.exc ("Claude completion failed: " ++ e)) ∧
    solveStemProblem problem subject (.error e) =
      .error (.exc ("Claude completion failed: " ++ e)) ∧
    defineTerm term ctx (.error e) =
      .error (.exc ("Claude completion failed: " ++ e)) := by
  refine ⟨rfl, rfl, rfl⟩

/-- C9 counterexample: with the steps before logging succeeding, a failure
of the post-hoc _log_interaction write is caught by the blanket handler
and the whole analyze_content call fails with HTTP 500, even though the
identical call with a succeeding log write returns the successful
response — the caller does not receive the success. -/
theorem claim_C9_counterexample :
    analyzeContent "some content" "analysis" none (.ok 7) (.error "db down") =
      .error { status_code := 500, detail := "Analysis failed: db down" } ∧
    (analyzeContent "some content" "analysis" none (.ok 7) (.ok ())).isOk = true := by
  constructor
  · rfl
  · rfl

/-- C9 amended: a failure in the post-hoc interaction-logging write
propagates to the blanket exception handler of analyze_content, which
converts the already-successful operation into an HTTP 500
"Analysis failed" error; the caller does not receive the successful
response. -/
theorem claim_C9_amended (content reqType : String) (context : Option String)
    (rid : Nat) (e : String) :
    analyzeContent content reqType context (.ok rid) (.error e) =
      .error { status_code := 500, detail := "Analysis failed: " ++ e } := by
  rfl

/-- C1 counterexample: a concrete successful solve submission persists the
pending record but answers with metadata status "processing", not
"pending", so the claim's returned-status part fails. -/
theorem claim_C1_counterexample :
    (solveRoute [] "what is 2+2" none none 1 7 0 true true).2.1 =
      .ok { success := true, message := "Problem solving queued successfully",
            data := none,
            metadata := [("timestamp", toString (0 : Nat)),
                         ("interaction_id", toString (7 : Nat)),
                         ("status", "processing")] } ∧
    ("processing" : String) ≠ "pending" := by
  constructor
  · rfl
  · decide

/-- C1 amended: for every solve or define submission whose rate-limit and
persistence steps succeed, the route synchronously appends a new
interaction record in status "pending", queues the provider work as an
unexecuted background task (the response is computed without any provider
input), and returns immediately with the interaction id — but the status
string placed in the response metadata is "processing", not "pending". -/
theorem claim_C1_amended (db : List Interaction) (problem tname : String)
    (subject context tcontext : Option String) (userId newId now : Nat) :
    solveRoute db problem subject context userId newId now true true =
      (db ++ [{ id := newId, user_id := userId, type := "stem_solution",
                status := "pending", request_data := .stem problem subject context,
                response_data := none, error_message := none,
                created_at := now, completed_at := none }],
       .ok { success := true, message := "Problem solving queued successfully",
             data := none,
             metadata := [("timestamp", toString now),
                          ("interaction_id", toString newId),
                          ("status", "processing")] },
       [.processStem newId problem subject userId context]) ∧
    defineRoute db tname tcontext userId newId now true true =
      (db ++ [{ id := newId, user_id := userId, type := "term_definition",
                status := "pending", request_data := .term tname tcontext,
                response_data := none, error_message := none,
                created_at := now, completed_at := none }],
       .ok { success := true, message := "Term definition queued successfully",
             data := none,
             metadata := [("timestamp", toString now),
                          ("interaction_id", toString newId),
                          ("status", "processing")] },
       [.processTerm newId tname userId tcontext]) := by
  refine ⟨rfl, rfl⟩

/-- C2: the status check returns a record only when it belongs to the
requesting user, and whenever no record with the requested id is owned by
the requester (the id is absent, or present but owned by another user)
the result is one and the same error response — so an existing
interaction of another user is indistinguishable from a nonexistent
id. -/
theorem claim_C2_status_ownership (db : List Interaction) (userId iid : Nat) :
    ((∀ r ∈ db, r.id = iid → r.user_id ≠ userId) →
      checkStatusRoute db iid userId =
        .error { status_code := 500, detail := "Failed to check status" }) ∧
    (∀ resp, checkStatusRoute db iid userId = .ok resp →
      ∃ r ∈ db, r.id = iid ∧ r.user_id = userId) := by
  constructor
  · intro h
    unfold checkStatusRoute getInteraction
    cases hf : db.find? (fun r => r.id == iid) with
    | none => rfl
    | some r =>
      have hmem : r ∈ db := List.mem_of_find?_eq_some hf
      have hid : r.id = iid := by simpa using List.find?_some hf
      have hne : r.user_id ≠ userId := h r hmem hid
      dsimp only
      rw [if_neg (by simpa using hne)]
  · intro resp hok
    unfold checkStatusRoute getInteraction at hok
    cases hf : db.find? (fun r => r.id == iid) with
    | none =>
      rw [hf] at hok
      simp at hok
    | some r =>
      rw [hf] at hok
      dsimp only at hok
      by_cases hu : r.user_id = userId
      · exact ⟨r, List.mem_of_find?_eq_some hf, by simpa using List.find?_some hf, hu⟩
      · rw [if_neg (by simpa using hu)] at hok
        simp at hok

/-- C2 witness: a store holding interaction 5 owned by user 1; user 2
asking for id 5 (existing, not owned) and for id 99 (nonexistent) gets
the identical error result. -/
theorem claim_C2_witness :
    checkStatusRoute
        [{ id := 5, user_id := 1, type := "stem_solution", status := "pending",
           request_data := .stem "p" none none, response_data := none,
           error_message := none, created_at := 0, completed_at := none }] 5 2 =
      .error { status_code := 500, detail := "Failed to check status" } ∧
    checkStatusRoute
        [{ id := 5, user_id := 1, type := "stem_solution", status := "pending",
           request_data := .stem "p" none none, response_data := none,
           error_message := none, created_at := 0, completed_at := none }] 99 2 =
      .error { status_code := 500, detail := "Failed to check status" } :=
  ⟨(claim_C2_status_ownership _ 2 5).1 (by decide),
   (claim_C2_status_ownership _ 2 99).1 (by decide)⟩
